import Mathlib

/-!
Verification development for the image_description repository.

The Python sources under `image_analysis/` are shallowly embedded:
pixels are triples of naturals, Python `float` arithmetic is idealised
as exact rational arithmetic over `ℚ`, Python strings on the service
layer are lists of Unicode code points (`List ℕ`), and fallible code
returns `Except`/`Option`.

The standard rational operations `+ - * /` on `ℚ` are `@[irreducible]`
in this toolchain, so the embedding uses kernel-computable equivalents
`qadd, qsub, qmul, qdiv` (defined through `Rat.divInt` on numerators and
denominators) together with bridge lemmas proving them equal to the
standard operations; all symbolic reasoning goes through the bridges.
-/

/-- Exact rational addition, in a kernel-computable form. -/
def qadd (a b : ℚ) : ℚ := Rat.divInt (a.num * b.den + b.num * a.den) (a.den * b.den)

/-- Exact rational subtraction, in a kernel-computable form. -/
def qsub (a b : ℚ) : ℚ := Rat.divInt (a.num * b.den - b.num * a.den) (a.den * b.den)

/-- Exact rational multiplication, in a kernel-computable form. -/
def qmul (a b : ℚ) : ℚ := Rat.divInt (a.num * b.num) (a.den * b.den)

/-- Exact rational division (0 when dividing by 0, as for `/` on `ℚ`),
in a kernel-computable form. -/
def qdiv (a b : ℚ) : ℚ := Rat.divInt (a.num * b.den) (a.den * b.num)

theorem num_eq_mul_den (a : ℚ) : (a.num : ℚ) = a * (a.den : ℚ) :=
  (div_eq_iff (by positivity)).mp (Rat.num_div_den a)

theorem qadd_eq (a b : ℚ) : qadd a b = a + b := by
  unfold qadd
  rw [Rat.divInt_eq_div]
  push_cast
  rw [div_eq_iff (by positivity), num_eq_mul_den, num_eq_mul_den]
  ring

theorem qsub_eq (a b : ℚ) : qsub a b = a - b := by
  unfold qsub
  rw [Rat.divInt_eq_div]
  push_cast
  rw [div_eq_iff (by positivity), num_eq_mul_den, num_eq_mul_den]
  ring

theorem qmul_eq (a b : ℚ) : qmul a b = a * b := by
  unfold qmul
  rw [Rat.divInt_eq_div]
  push_cast
  rw [div_eq_iff (by positivity), num_eq_mul_den, num_eq_mul_den]
  ring

theorem qdiv_eq (a b : ℚ) : qdiv a b = a / b := by
  unfold qdiv
  rcases eq_or_ne b 0 with rfl | hb
  · rw [show ((0:ℚ).num) = 0 from rfl, mul_zero, Rat.divInt_zero, div_zero]
  · have hbnum : (b.num : ℚ) ≠ 0 :=
      Int.cast_ne_zero.mpr (Rat.num_ne_zero.mpr hb)
    rw [Rat.divInt_eq_div]
    push_cast
    rw [div_eq_div_iff (mul_ne_zero (by positivity) hbnum) hb,
      num_eq_mul_den, num_eq_mul_den]
    ring

/-- Kernel-computable fractional part, modelling `x % 1.0` on a Python float. -/
def qfract (q : ℚ) : ℚ := qsub q (Rat.divInt ⌊q⌋ 1)

theorem qfract_eq (q : ℚ) : qfract q = Int.fract q := by
  rw [qfract, qsub_eq, Rat.divInt_one, Int.fract]

/-- A pixel as an RGB triple of channel values. -/
abbrev Pixel := ℕ × ℕ × ℕ

/-- Absolute difference of two naturals (models Python `abs(a - b)` on ints). -/
def nd (a b : ℕ) : ℕ := if a ≤ b then b - a else a - b

/-- Manhattan distance between two RGB pixels:
`abs(r1-r2) + abs(g1-g2) + abs(b1-b2)` as in `utils.get_dominant_colors`. -/
def mdist (p q : Pixel) : ℕ := nd p.1 q.1 + nd p.2.1 q.2.1 + nd p.2.2 q.2.2

theorem nd_comm (a b : ℕ) : nd a b = nd b a := by
  unfold nd; split <;> split <;> omega

theorem mdist_comm (p q : Pixel) : mdist p q = mdist q p := by
  unfold mdist; rw [nd_comm, nd_comm p.2.1, nd_comm p.2.2]

/-- Round-half-to-even on rationals, modelling Python 3 `round` to an integer. -/
def roundHalfEven (q : ℚ) : ℤ :=
  let f := ⌊q⌋
  let r := qsub q (Rat.divInt f 1)
  if r < Rat.divInt 1 2 then f
  else if Rat.divInt 1 2 < r then f + 1
  else if f % 2 = 0 then f else f + 1

/-- Python `round(x, 1)` modelled over `ℚ`. -/
def pyRound1 (q : ℚ) : ℚ := Rat.divInt (roundHalfEven (qmul q 10)) 10

/-- Python `round(x, 2)` modelled over `ℚ`. -/
def pyRound2 (q : ℚ) : ℚ := Rat.divInt (roundHalfEven (qmul q 100)) 100

theorem roundHalfEven_nonneg {q : ℚ} (h : 0 ≤ q) : 0 ≤ roundHalfEven q := by
  unfold roundHalfEven
  have hf : (0:ℤ) ≤ ⌊q⌋ := Int.le_floor.mpr (by exact_mod_cast h)
  dsimp only
  split
  · exact hf
  · split
    · omega
    · split
      · exact hf
      · omega

theorem roundHalfEven_le {q : ℚ} {B : ℤ} (h : q ≤ (B:ℚ)) : roundHalfEven q ≤ B := by
  unfold roundHalfEven
  have hf : ⌊q⌋ ≤ B := Int.floor_le_floor h |>.trans_eq (Int.floor_intCast B)
  dsimp only
  rw [qsub_eq, Rat.divInt_one]
  rcases eq_or_lt_of_le hf with heq | hlt
  · have hq : q ≤ (⌊q⌋ : ℚ) := by rw [heq]; exact_mod_cast h
    have hr : q - (⌊q⌋ : ℚ) < Rat.divInt 1 2 := by
      rw [Rat.divInt_eq_div]
      push_cast
      linarith
    rw [if_pos hr]
    exact hf
  · split
    · exact hf
    · split
      · omega
      · split
        · exact hf
        · omega

/-!
## `utils.get_color_name` (claim C1)

`colorsys.rgb_to_hsv` from the Python standard library, embedded over `ℚ`.
-/

/-- CPython `colorsys.rgb_to_hsv`, exact over `ℚ`.  Returns `(h, s, v)`. -/
def rgb_to_hsv (r g b : ℚ) : ℚ × ℚ × ℚ :=
  let maxc := max r (max g b)
  let minc := min r (min g b)
  let rangec := qsub maxc minc
  let v := maxc
  if minc = maxc then (0, 0, v)
  else
    let s := qdiv rangec maxc
    let rc := qdiv (qsub maxc r) rangec
    let gc := qdiv (qsub maxc g) rangec
    let bc := qdiv (qsub maxc b) rangec
    let h0 := if r = maxc then qsub bc gc
              else if g = maxc then qsub (qadd 2 rc) bc
              else qsub (qadd 4 gc) rc
    (qfract (qdiv h0 6), s, v)

/-- Model of `utils.get_color_name(r, g, b)`: HSV threshold ladder mapping an RGB
triple to a color-name string, including the dead second `h < 150` branch
of the source.  `Rat.divInt 2 10` and `Rat.divInt 8 10` are the source's
`0.2` and `0.8` in kernel-computable form. -/
def get_color_name (r g b : ℕ) : String :=
  let hsv := rgb_to_hsv (qdiv (r:ℚ) 255) (qdiv (g:ℚ) 255) (qdiv (b:ℚ) 255)
  let h := qmul hsv.1 360
  let s := hsv.2.1
  let v := hsv.2.2
  if v < Rat.divInt 2 10 then "black"
  else if Rat.divInt 8 10 < v ∧ s < Rat.divInt 2 10 then "white"
  else if s < Rat.divInt 2 10 then "gray"
  else if h < 15 ∨ 345 < h then "red"
  else if h < 45 then "orange"
  else if h < 75 then "yellow"
  else if h < 150 then "green"
  else if h < 150 then "blue"
  else if h < 270 then "purple"
  else if h < 330 then "pink"
  else "red"

/-- The HSV threshold ladder exactly as the specification words it
(no `blue` branch at all). -/
def ladderSpec (h s v : ℚ) : String :=
  if v < 0.2 then "black"
  else if 0.8 < v ∧ s < 0.2 then "white"
  else if s < 0.2 then "gray"
  else if h < 15 ∨ 345 < h then "red"
  else if h < 45 then "orange"
  else if h < 75 then "yellow"
  else if h < 150 then "green"
  else if h < 270 then "purple"
  else if h < 330 then "pink"
  else "red"

example : get_color_name 255 0 0 = "red" := by decide

/-- C1: `get_color_name` is deterministic and total over the RGB cube and
follows the spec's HSV threshold ladder (`ladderSpec`, which has no blue
branch); the four anchor colors map to "white", "black", "red", "green";
and no RGB input ever maps to "blue" (the source's blue branch repeats the
`h < 150` test of the green branch and is unreachable). -/
theorem C1_get_color_name_ladder :
    (∀ r g b : ℕ,
      get_color_name r g b =
        ladderSpec
          (qmul (rgb_to_hsv (qdiv (r:ℚ) 255) (qdiv (g:ℚ) 255) (qdiv (b:ℚ) 255)).1 360)
          (rgb_to_hsv (qdiv (r:ℚ) 255) (qdiv (g:ℚ) 255) (qdiv (b:ℚ) 255)).2.1
          (rgb_to_hsv (qdiv (r:ℚ) 255) (qdiv (g:ℚ) 255) (qdiv (b:ℚ) 255)).2.2) ∧
    get_color_name 255 255 255 = "white" ∧
    get_color_name 0 0 0 = "black" ∧
    get_color_name 255 0 0 = "red" ∧
    get_color_name 0 255 0 = "green" ∧
    (∀ r g b : ℕ, get_color_name r g b ≠ "blue") := by
  have e2 : Rat.divInt 2 10 = (0.2:ℚ) := by rw [Rat.divInt_eq_div]; norm_num
  have e8 : Rat.divInt 8 10 = (0.8:ℚ) := by rw [Rat.divInt_eq_div]; norm_num
  refine ⟨?_, by decide, by decide, by decide, by decide, ?_⟩
  · intro r g b
    unfold get_color_name ladderSpec
    dsimp only
    rw [e2, e8]
    by_cases hb :
        qmul (rgb_to_hsv (qdiv (r:ℚ) 255) (qdiv (g:ℚ) 255) (qdiv (b:ℚ) 255)).1 360 < 150
    · simp only [if_pos hb]
    · simp only [if_neg hb]
  · intro r g b
    unfold get_color_name
    dsimp only
    by_cases hb :
        qmul (rgb_to_hsv (qdiv (r:ℚ) 255) (qdiv (g:ℚ) 255) (qdiv (b:ℚ) 255)).1 360 < 150
    · simp only [if_pos hb]
      (repeat' split) <;> decide
    · simp only [if_neg hb]
      (repeat' split) <;> decide

/-!
## `utils.get_dominant_colors` (claims C2, C5, C6)

The function receives the (already thumbnailed, RGB) pixel list of the
image and the requested number of colors.
-/

/-- Python `lst[-n:]`: the last `n` elements of a list. -/
def lastN (n : ℕ) (l : List α) : List α := l.drop (l.length - n)

/-- The candidate-pool loop of `get_dominant_colors`: scan pixels in order,
appending a pixel to the accumulator unless it is within Manhattan distance
`< 30` of one of the last 100 already-accepted pixels. -/
def filterSimilarAux : List Pixel → List Pixel → List Pixel
  | [], acc => acc
  | p :: rest, acc =>
    if (lastN 100 acc).any (fun e => mdist p e < 30) then
      filterSimilarAux rest acc
    else
      filterSimilarAux rest (acc ++ [p])

/-- The `filtered_pixels` pool of the source. -/
def filteredPixels (pixels : List Pixel) : List Pixel := filterSimilarAux pixels []

/-- The `pixels_to_analyze` choice: the filtered pool when it is large enough
(`> num_colors * 10`), otherwise the full unfiltered pixel list. -/
def pixelsToAnalyze (pixels : List Pixel) (numColors : ℕ) : List Pixel :=
  if numColors * 10 < (filteredPixels pixels).length then filteredPixels pixels
  else pixels

/-- Distinct elements of a list in first-occurrence order
(the iteration order of a Python `Counter`'s keys). -/
def dedupFirst (l : List Pixel) : List Pixel :=
  l.foldl (fun acc p => if p ∈ acc then acc else acc ++ [p]) []

/-- Stable insertion into a count-descending list: the new entry goes after
all existing entries with a count ≥ its own. -/
def insertDesc (x : Pixel × ℕ) : List (Pixel × ℕ) → List (Pixel × ℕ)
  | [] => [x]
  | y :: rest => if y.2 < x.2 then x :: y :: rest else y :: insertDesc x rest

/-- Stable sort by descending count (the order produced by
`Counter.most_common`). -/
def sortDesc (l : List (Pixel × ℕ)) : List (Pixel × ℕ) :=
  l.foldl (fun acc x => insertDesc x acc) []

/-- Model of `Counter(pixels).most_common(n)`: the `n` most frequent distinct colors
with their counts, most frequent first, ties in first-occurrence order. -/
def mostCommon (l : List Pixel) (n : ℕ) : List (Pixel × ℕ) :=
  (sortDesc ((dedupFirst l).map (fun p => (p, l.count p)))).take n

/-- The greedy diversity filter over the ranked candidates: accept a
candidate only if its Manhattan distance to every already-accepted color is
`≥ 60`, stopping once `numColors` colors are accepted. -/
def diverseFilter (cands : List (Pixel × ℕ)) (numColors : ℕ)
    (acc : List (Pixel × ℕ)) : List (Pixel × ℕ) :=
  match cands with
  | [] => acc
  | c :: rest =>
    if acc.any (fun s => mdist c.1 s.1 < 60) then
      diverseFilter rest numColors acc
    else
      let acc' := acc ++ [c]
      if numColors ≤ acc'.length then acc'
      else diverseFilter rest numColors acc'

/-- Lowercase hexadecimal digit characters. -/
def hexDigit (n : ℕ) : Char := "0123456789abcdef".data.getD n '0'

/-- Python `f"#{r:02x}{g:02x}{b:02x}"` for byte values. -/
def hexColor (p : Pixel) : String :=
  ⟨'#' :: hexDigit (p.1 / 16) :: hexDigit (p.1 % 16) ::
    hexDigit (p.2.1 / 16) :: hexDigit (p.2.1 % 16) ::
    hexDigit (p.2.2 / 16) :: hexDigit (p.2.2 % 16) :: []⟩

/-- One returned dominant-color entry. -/
structure ColorSwatch where
  hex : String
  rgb : Pixel
  name : String
  percentage : ℚ
deriving DecidableEq, Repr

/-- Build the result dictionary for one `(color, count)` pair; `total` is
the unfiltered pixel count. -/
def mkSwatch (total : ℕ) (x : Pixel × ℕ) : ColorSwatch :=
  { hex := hexColor x.1
    rgb := x.1
    name := get_color_name x.1.1 x.1.2.1 x.1.2.2
    percentage := pyRound1 (qmul (qdiv (x.2 : ℚ) (total : ℚ)) 100) }

/-- Model of `utils.get_dominant_colors(image, num_colors)`, from the pixel list of
the thumbnailed RGB image. -/
def get_dominant_colors (pixels : List Pixel) (numColors : ℕ) : List ColorSwatch :=
  let pta := pixelsToAnalyze pixels numColors
  let mc := mostCommon pta (numColors * 2)
  let div := diverseFilter mc numColors []
  div.map (mkSwatch pixels.length)

example :
    get_dominant_colors [(255,0,0),(255,0,0),(0,200,0)] 5 =
      [mkSwatch 3 ((255,0,0), 2), mkSwatch 3 ((0,200,0), 1)] := by decide
example : (mkSwatch 1 ((255,0,0), 1)).percentage = 100 := by decide

theorem diverseFilter_length_le (cands : List (Pixel × ℕ)) (n : ℕ)
    (acc : List (Pixel × ℕ)) (h : acc.length < n) :
    (diverseFilter cands n acc).length ≤ n := by
  induction cands generalizing acc with
  | nil => rw [diverseFilter]; exact Nat.le_of_lt h
  | cons c rest ih =>
    rw [diverseFilter]
    split
    · exact ih acc h
    · dsimp only
      split
      · simp only [List.length_append, List.length_singleton]
        omega
      · next hlt =>
        refine ih _ ?_
        simp only [List.length_append, List.length_singleton] at hlt ⊢
        omega

theorem diverseFilter_pairwise (cands : List (Pixel × ℕ)) (n : ℕ)
    (acc : List (Pixel × ℕ))
    (hacc : acc.Pairwise (fun a b => 60 ≤ mdist a.1 b.1)) :
    (diverseFilter cands n acc).Pairwise (fun a b => 60 ≤ mdist a.1 b.1) := by
  induction cands generalizing acc with
  | nil => rw [diverseFilter]; exact hacc
  | cons c rest ih =>
    rw [diverseFilter]
    split
    · exact ih acc hacc
    · next hnot =>
      have hfar : ∀ s ∈ acc, 60 ≤ mdist s.1 c.1 := by
        intro s hs
        simp only [List.any_eq_true, decide_eq_true_eq, not_exists, not_and] at hnot
        have := hnot s hs
        rw [mdist_comm]
        omega
      have hacc' : (acc ++ [c]).Pairwise (fun a b => 60 ≤ mdist a.1 b.1) := by
        refine List.pairwise_append.mpr ⟨hacc, List.pairwise_singleton _ _, ?_⟩
        intro a ha b hb
        rw [List.mem_singleton] at hb
        subst hb
        exact hfar a ha
      dsimp only
      split
      · exact hacc'
      · exact ih _ hacc'

theorem mem_diverseFilter (cands : List (Pixel × ℕ)) (n : ℕ)
    (acc : List (Pixel × ℕ)) (x : Pixel × ℕ)
    (hx : x ∈ diverseFilter cands n acc) : x ∈ acc ∨ x ∈ cands := by
  induction cands generalizing acc with
  | nil => rw [diverseFilter] at hx; exact Or.inl hx
  | cons c rest ih =>
    rw [diverseFilter] at hx
    split at hx
    · rcases ih acc hx with h | h
      · exact Or.inl h
      · exact Or.inr (List.mem_cons_of_mem _ h)
    · dsimp only at hx
      split at hx
      · rcases List.mem_append.mp hx with h | h
        · exact Or.inl h
        · rw [List.mem_singleton] at h
          exact Or.inr (h ▸ List.mem_cons_self _ _)
      · rcases ih _ hx with h | h
        · rcases List.mem_append.mp h with h' | h'
          · exact Or.inl h'
          · rw [List.mem_singleton] at h'
            exact Or.inr (h' ▸ List.mem_cons_self _ _)
        · exact Or.inr (List.mem_cons_of_mem _ h)

theorem mem_insertDesc (x y : Pixel × ℕ) (l : List (Pixel × ℕ)) :
    y ∈ insertDesc x l ↔ y = x ∨ y ∈ l := by
  induction l with
  | nil => simp [insertDesc]
  | cons z rest ih =>
    rw [insertDesc]
    split
    · simp
    · simp only [List.mem_cons, ih]
      tauto

theorem mem_sortDesc (l : List (Pixel × ℕ)) (y : Pixel × ℕ) :
    y ∈ sortDesc l ↔ y ∈ l := by
  suffices h : ∀ acc, y ∈ l.foldl (fun acc x => insertDesc x acc) acc ↔
      y ∈ acc ∨ y ∈ l by
    simpa [sortDesc] using h []
  induction l with
  | nil => simp
  | cons z rest ih =>
    intro acc
    simp only [List.foldl_cons, ih, mem_insertDesc, List.mem_cons]
    tauto

theorem mem_dedupFirst_aux (l : List Pixel) :
    ∀ (acc : List Pixel) (p : Pixel),
      p ∈ l.foldl (fun acc q => if q ∈ acc then acc else acc ++ [q]) acc →
      p ∈ acc ∨ p ∈ l := by
  induction l with
  | nil => intro acc p h; exact Or.inl h
  | cons q rest ih =>
    intro acc p h
    rw [List.foldl_cons] at h
    rcases ih _ p h with h' | h'
    · split at h'
      · exact Or.inl h'
      · rcases List.mem_append.mp h' with h'' | h''
        · exact Or.inl h''
        · rw [List.mem_singleton] at h''
          exact Or.inr (h'' ▸ List.mem_cons_self _ _)
    · exact Or.inr (List.mem_cons_of_mem _ h')

theorem mem_dedupFirst (l : List Pixel) (p : Pixel) (hp : p ∈ dedupFirst l) :
    p ∈ l := by
  rcases mem_dedupFirst_aux l [] p hp with h' | h'
  · simp at h'
  · exact h'

theorem mem_mostCommon (l : List Pixel) (n : ℕ) (x : Pixel × ℕ)
    (hx : x ∈ mostCommon l n) : x.1 ∈ l ∧ x.2 = l.count x.1 := by
  have h1 : x ∈ sortDesc ((dedupFirst l).map (fun p => (p, l.count p))) :=
    List.mem_of_mem_take hx
  rw [mem_sortDesc] at h1
  rcases List.mem_map.mp h1 with ⟨p, hp, hpx⟩
  subst hpx
  exact ⟨mem_dedupFirst l p hp, rfl⟩

theorem filterSimilarAux_length (rest acc : List Pixel) :
    (filterSimilarAux rest acc).length ≤ acc.length + rest.length := by
  induction rest generalizing acc with
  | nil => rw [filterSimilarAux]; omega
  | cons p r ih =>
    rw [filterSimilarAux]
    split
    · have := ih acc
      simp only [List.length_cons]
      omega
    · have := ih (acc ++ [p])
      simp only [List.length_append, List.length_singleton, List.length_cons,
        List.length_nil] at this ⊢
      omega

theorem filteredPixels_length_le (pixels : List Pixel) :
    (filteredPixels pixels).length ≤ pixels.length := by
  have := filterSimilarAux_length pixels []
  simpa [filteredPixels] using this

theorem pixelsToAnalyze_length_le (pixels : List Pixel) (n : ℕ) :
    (pixelsToAnalyze pixels n).length ≤ pixels.length := by
  unfold pixelsToAnalyze
  split
  · exact filteredPixels_length_le pixels
  · exact le_refl _

theorem get_dominant_colors_nil (n : ℕ) : get_dominant_colors [] n = [] := by
  have hpta : pixelsToAnalyze [] n = [] := by
    unfold pixelsToAnalyze filteredPixels filterSimilarAux
    split <;> rfl
  have hmc : mostCommon [] (n * 2) = [] := by
    unfold mostCommon dedupFirst sortDesc
    simp
  unfold get_dominant_colors
  dsimp only
  rw [hpta, hmc, diverseFilter]
  rfl

/-- C2: for every pixel sequence and every target count,
`get_dominant_colors` returns at most `targetCount` swatches, the returned
swatches are pairwise at Manhattan distance ≥ 60, and on an empty pixel
sequence the result is empty (never padded). -/
theorem C2_dominant_colors_invariants (pixels : List Pixel) (targetCount : ℕ) :
    (get_dominant_colors pixels targetCount).length ≤ targetCount ∧
    (get_dominant_colors pixels targetCount).Pairwise
      (fun s1 s2 => 60 ≤ mdist s1.rgb s2.rgb) ∧
    get_dominant_colors [] targetCount = [] := by
  refine ⟨?_, ?_, get_dominant_colors_nil targetCount⟩
  · unfold get_dominant_colors
    rw [List.length_map]
    rcases Nat.eq_zero_or_pos targetCount with rfl | hpos
    · have : mostCommon (pixelsToAnalyze pixels 0) (0 * 2) = [] := by
        simp [mostCommon]
      rw [this, diverseFilter]
      exact Nat.le_refl 0
    · exact diverseFilter_length_le _ _ [] (by simpa using hpos)
  · unfold get_dominant_colors
    refine List.Pairwise.map _ ?_
      (diverseFilter_pairwise _ targetCount [] (List.Pairwise.nil))
    intro a b hab
    exact hab

/-- Window soundness of the candidate pool: each accepted pixel is at
Manhattan distance ≥ 30 from each of the (up to) 100 pixels accepted just
before it. -/
def slidingSound (out : List Pixel) : Prop :=
  ∀ i, i < out.length → ∀ q ∈ lastN 100 (out.take i), 30 ≤ mdist (out.getD i (0,0,0)) q

theorem slidingSound_append (acc : List Pixel) (p : Pixel)
    (hacc : slidingSound acc)
    (hfar : ∀ q ∈ lastN 100 acc, 30 ≤ mdist p q) :
    slidingSound (acc ++ [p]) := by
  intro i hi q hq
  rw [List.length_append, List.length_singleton] at hi
  rcases Nat.lt_or_ge i acc.length with hlt | hge
  · have htake : (acc ++ [p]).take i = acc.take i := by
      rw [List.take_append_eq_append_take, Nat.sub_eq_zero_of_le (le_of_lt hlt),
        List.take_zero, List.append_nil]
    have hgetD : (acc ++ [p]).getD i (0,0,0) = acc.getD i (0,0,0) := by
      rw [List.getD_eq_getElem?_getD, List.getD_eq_getElem?_getD,
        List.getElem?_append_left hlt]
    rw [htake] at hq
    rw [hgetD]
    exact hacc i hlt q hq
  · have hieq : i = acc.length := by omega
    subst hieq
    have htake : (acc ++ [p]).take acc.length = acc := List.take_left _ _
    have hgetD : (acc ++ [p]).getD acc.length (0,0,0) = p := by
      rw [List.getD_eq_getElem?_getD, List.getElem?_append_right (le_refl _)]
      simp
    rw [htake] at hq
    rw [hgetD]
    exact hfar q hq

theorem filterSimilarAux_sound (rest : List Pixel) :
    ∀ acc, slidingSound acc → slidingSound (filterSimilarAux rest acc) := by
  induction rest with
  | nil => intro acc h; rw [filterSimilarAux]; exact h
  | cons p r ih =>
    intro acc h
    rw [filterSimilarAux]
    split
    · exact ih acc h
    · next hnot =>
      refine ih _ (slidingSound_append acc p h ?_)
      intro q hq
      simp only [List.any_eq_true, decide_eq_true_eq, not_exists, not_and] at hnot
      have := hnot q hq
      omega

theorem slidingSound_nil : slidingSound [] := by
  intro i hi
  simp at hi

/-- A pixel list of 101 pairwise-far colors followed by a repetition of the
first color; the repetition falls outside the 100-element window and is
accepted again. -/
def demoPixels : List Pixel :=
  ((List.range 101).map (fun k => (40 * (k % 7), 40 * (k / 7 % 7), 40 * (k / 49)))) ++
    [(0, 0, 0)]

set_option maxRecDepth 200000 in
/-- C5: the candidate pool accepts a pixel iff its Manhattan distance to
every one of the last 100 already-accepted candidates is ≥ 30 (step
characterization and window soundness); it is a sliding-window filter, not
global uniqueness (witnessed by `demoPixels`); and frequency counting runs
over the filtered pool iff its size exceeds `targetCount * 10`, otherwise
over the full pixel list. -/
theorem C5_candidate_pool (pixels : List Pixel) (targetCount : ℕ) :
    (∀ (p : Pixel) (rest acc : List Pixel),
      filterSimilarAux (p :: rest) acc =
        if ∀ q ∈ lastN 100 acc, 30 ≤ mdist p q then
          filterSimilarAux rest (acc ++ [p])
        else filterSimilarAux rest acc) ∧
    slidingSound (filteredPixels pixels) ∧
    pixelsToAnalyze pixels targetCount =
      (if targetCount * 10 < (filteredPixels pixels).length then filteredPixels pixels
       else pixels) ∧
    ¬ (filteredPixels demoPixels).Pairwise (fun a b => 30 ≤ mdist a b) := by
  refine ⟨?_, filterSimilarAux_sound pixels [] slidingSound_nil, rfl, by decide⟩
  intro p rest acc
  rw [filterSimilarAux]
  by_cases h : ∀ q ∈ lastN 100 acc, 30 ≤ mdist p q
  · rw [if_pos h, if_neg]
    simp only [List.any_eq_true, decide_eq_true_eq, not_exists, not_and]
    intro q hq
    have := h q hq
    omega
  · rw [if_neg h, if_pos]
    simp only [List.any_eq_true, decide_eq_true_eq]
    push_neg at h
    obtain ⟨q, hq, hlt⟩ := h
    exact ⟨q, hq, by omega⟩

/-- Witness for C5: on a concrete two-pixel image the window-soundness part
yields the concrete distance bound between the two accepted pixels. -/
theorem C5_candidate_pool_witness :
    30 ≤ mdist ((filteredPixels [(0,0,0), (100,0,0)]).getD 1 (0,0,0)) (0,0,0) :=
  (C5_candidate_pool [(0,0,0), (100,0,0)] 5).2.1 1 (by decide) (0,0,0) (by decide)

theorem pyRound1_nonneg {z : ℚ} (h0 : 0 ≤ z) : 0 ≤ pyRound1 z := by
  unfold pyRound1
  rw [qmul_eq, Rat.divInt_eq_div]
  have h1 : 0 ≤ roundHalfEven (z * 10) := roundHalfEven_nonneg (by linarith)
  have : (0:ℚ) ≤ (roundHalfEven (z * 10) : ℚ) := by exact_mod_cast h1
  positivity

theorem pyRound1_le_100 {z : ℚ} (h100 : z ≤ 100) : pyRound1 z ≤ 100 := by
  unfold pyRound1
  rw [qmul_eq, Rat.divInt_eq_div]
  have h2 : roundHalfEven (z * 10) ≤ (1000:ℤ) := by
    refine roundHalfEven_le ?_
    push_cast
    linarith
  rw [div_le_iff₀ (by norm_num)]
  calc ((roundHalfEven (z * 10) : ℤ) : ℚ) ≤ ((1000:ℤ) : ℚ) := by exact_mod_cast h2
    _ = 100 * 10 := by norm_num

theorem pixelsToAnalyze_nil (n : ℕ) : pixelsToAnalyze [] n = [] := by
  unfold pixelsToAnalyze filteredPixels filterSimilarAux
  split <;> rfl

/-- C6: every swatch returned by `get_dominant_colors` carries
`percentage = round1((count / total unfiltered pixel count) * 100)` for its
color's frequency count, and this percentage lies in `[0, 100]`. -/
theorem C6_percentage_formula (pixels : List Pixel) (targetCount : ℕ)
    (sw : ColorSwatch) (hsw : sw ∈ get_dominant_colors pixels targetCount) :
    sw.percentage =
      pyRound1 (qmul (qdiv (((pixelsToAnalyze pixels targetCount).count sw.rgb : ℕ) : ℚ)
        ((pixels.length : ℕ) : ℚ)) 100) ∧
    0 ≤ sw.percentage ∧ sw.percentage ≤ 100 := by
  unfold get_dominant_colors at hsw
  rcases List.mem_map.mp hsw with ⟨x, hxdiv, hxsw⟩
  have hxmc : x ∈ mostCommon (pixelsToAnalyze pixels targetCount) (targetCount * 2) := by
    rcases mem_diverseFilter _ _ _ _ hxdiv with h | h
    · simp at h
    · exact h
  obtain ⟨hx1, hx2⟩ := mem_mostCommon _ _ _ hxmc
  have hne : pixels ≠ [] := by
    intro hnil
    subst hnil
    rw [pixelsToAnalyze_nil] at hx1
    simp at hx1
  have htotal : 0 < pixels.length := List.length_pos.mpr hne
  have hcount_le : x.2 ≤ pixels.length := by
    rw [hx2]
    calc (pixelsToAnalyze pixels targetCount).count x.1
        ≤ (pixelsToAnalyze pixels targetCount).length := List.count_le_length _ _
      _ ≤ pixels.length := pixelsToAnalyze_length_le pixels targetCount
  subst hxsw
  have hrgb : (mkSwatch pixels.length x).rgb = x.1 := rfl
  have hperc : (mkSwatch pixels.length x).percentage =
      pyRound1 (qmul (qdiv ((x.2 : ℕ) : ℚ) ((pixels.length : ℕ) : ℚ)) 100) := rfl
  refine ⟨?_, ?_, ?_⟩
  · rw [hperc, hrgb, ← hx2]
  · rw [hperc]
    refine pyRound1_nonneg ?_
    rw [qmul_eq, qdiv_eq]
    positivity
  · rw [hperc]
    refine pyRound1_le_100 ?_
    rw [qmul_eq, qdiv_eq]
    have h1 : ((x.2 : ℕ) : ℚ) / ((pixels.length : ℕ) : ℚ) ≤ 1 := by
      rw [div_le_one (by exact_mod_cast htotal)]
      exact_mod_cast hcount_le
    linarith

/-- Witness for C6 on the one-pixel red image. -/
theorem C6_percentage_formula_witness :
    (mkSwatch 1 ((255,0,0), 1)).percentage =
      pyRound1 (qmul (qdiv (((pixelsToAnalyze [(255,0,0)] 5).count
          (mkSwatch 1 ((255,0,0), 1)).rgb : ℕ) : ℚ)
        ((([(255,0,0)] : List Pixel).length : ℕ) : ℚ)) 100) ∧
    0 ≤ (mkSwatch 1 ((255,0,0), 1)).percentage ∧
    (mkSwatch 1 ((255,0,0), 1)).percentage ≤ 100 :=
  C6_percentage_formula [(255,0,0)] 5 (mkSwatch 1 ((255,0,0), 1)) (by decide)

/-!
## `utils.extract_image_metadata` (claim C4)

The image decode itself is the external collaborator (Pillow); the
embedding starts from the decoded image's original dimensions and the
RGB pixel list of its thumbnail.
-/

/-- The metadata dictionary returned by `extract_image_metadata`. -/
structure ImageMetadata where
  width : ℕ
  height : ℕ
  dominant_colors : List ColorSwatch
  aspect : ℚ
  total_pixels : ℕ
deriving DecidableEq, Repr

/-- Model of `utils.extract_image_metadata` on a successfully decoded image:
dimensions are read off before any conversion, dominant colors are
computed with `num_colors=5`, `aspect` is `round(width / height, 2)` and
`total_pixels` is `width * height`. -/
def extract_image_metadata (width height : ℕ) (pixels : List Pixel) : ImageMetadata :=
  { width := width
    height := height
    dominant_colors := get_dominant_colors pixels 5
    aspect := pyRound2 (qdiv (width : ℚ) (height : ℚ))
    total_pixels := width * height }

/-- C4: for every successfully decoded image with positive dimensions,
`extract_image_metadata` returns `aspect_ratio = round(width/height, 2)` and
`total_pixels = width * height` for the original decoded dimensions. -/
theorem C4_extract_metadata (width height : ℕ) (pixels : List Pixel)
    (hw : 0 < width) (hh : 0 < height) :
    (extract_image_metadata width height pixels).aspect =
      pyRound2 (qdiv (width : ℚ) (height : ℚ)) ∧
    (extract_image_metadata width height pixels).total_pixels = width * height :=
  ⟨rfl, rfl⟩

/-- Witness for C4 at a concrete 100 × 200 image. -/
theorem C4_extract_metadata_witness :
    (extract_image_metadata 100 200 []).aspect =
      pyRound2 (qdiv ((100:ℕ) : ℚ) ((200:ℕ) : ℚ)) ∧
    (extract_image_metadata 100 200 []).total_pixels = 100 * 200 :=
  C4_extract_metadata 100 200 [] (by decide) (by decide)


/-!
## Service layer strings (claims C3, C7, C8, C9, C10)

Python strings are modelled as lists of Unicode code points.
-/

/-- Code points of a Lean string literal. -/
def strCodes (s : String) : List ℕ := s.data.map Char.toNat

/-- Python `str.lower()` on ASCII code points. -/
def asciiLower (c : ℕ) : ℕ := if 65 ≤ c ∧ c ≤ 90 then c + 32 else c

/-- Decimal digit code points of a natural number, fuel-based. -/
def natCodesAux : ℕ → ℕ → List ℕ
  | 0, _ => []
  | fuel + 1, n => if n < 10 then [48 + n] else natCodesAux fuel (n / 10) ++ [48 + n % 10]

/-- Python `str(n)` for a non-negative int: its decimal digit code points. -/
def natCodes (n : ℕ) : List ℕ := natCodesAux (n + 1) n

/-- Python float rendering of a rational, modelled as sign, integer part,
decimal point and two fractional digits; only its character set (digits,
`-`, `.`) matters for the theorems below. -/
def ratRender (q : ℚ) : List ℕ :=
  (if q.num < 0 then [45] else []) ++
  natCodes (q.num.natAbs / q.den) ++ [46] ++
  natCodes (q.num.natAbs * 100 / q.den % 100)

/-- Python `sep.join(parts)`. -/
def joinCodes (sep : List ℕ) : List (List ℕ) → List ℕ
  | [] => []
  | [x] => x
  | x :: y :: xs => x ++ sep ++ joinCodes sep (y :: xs)

/-- Whether `p` is a prefix of `l`. -/
def isSubAt : List ℕ → List ℕ → Bool
  | [], _ => true
  | _ :: _, [] => false
  | a :: p, b :: l => a == b && isSubAt p l

/-- Python `p in l` on strings: `p` occurs as a contiguous substring. -/
def containsSub : List ℕ → List ℕ → Bool
  | l, p =>
    isSubAt p l ||
      match l with
      | [] => false
      | _ :: rest => containsSub rest p

/-- The fixed color-name vocabulary scanned by
`LLMService._extract_detected_colors`. -/
def colorVocab : List (List ℕ) :=
  [strCodes "white", strCodes "black", strCodes "gray", strCodes "grey",
   strCodes "red", strCodes "blue", strCodes "green", strCodes "yellow",
   strCodes "orange", strCodes "purple", strCodes "pink", strCodes "brown",
   strCodes "tan", strCodes "beige", strCodes "navy", strCodes "maroon",
   strCodes "olive", strCodes "lime", strCodes "aqua", strCodes "teal",
   strCodes "silver"]

/-- Order-preserving de-duplication, as in `_extract_detected_colors`. -/
def pyDedup (l : List (List ℕ)) : List (List ℕ) :=
  l.foldl (fun acc c => if c ∈ acc then acc else acc ++ [c]) []

/-- Model of `LLMService._extract_detected_colors(prompt)`: collect the vocabulary
colors whose `name": "<color>"` or `'<color>'` pattern occurs in the
lowercased prompt, de-duplicated, first 5. -/
def extractDetectedColors (prompt : List ℕ) : List (List ℕ) :=
  let pl := prompt.map asciiLower
  let colors := colorVocab.filter (fun c =>
    containsSub pl (strCodes "name\": \"" ++ c ++ [34]) ||
    containsSub pl ([39] ++ c ++ [39]))
  (pyDedup colors).take 5

/-- Metadata consumed by `utils.generate_description_prompt`: the fields the
function reads from the metadata dictionary. -/
structure PromptMeta where
  width : ℕ
  height : ℕ
  aspect : ℚ
  colorNames : List (List ℕ)

/-- Model of `utils.generate_description_prompt(metadata)`: the fixed prompt template
with dimensions, aspect ratio, and the first three dominant color names
joined by `", "`. -/
def generate_description_prompt (m : PromptMeta) : List ℕ :=
  strCodes "Describe this image based on the following visual analysis:\n\nImage Properties:\n- Dimensions: " ++
  natCodes m.width ++ strCodes " x " ++ natCodes m.height ++
  strCodes " pixels\n- Aspect ratio: " ++ ratRender m.aspect ++
  strCodes "\n- Dominant colors: " ++ joinCodes (strCodes ", ") (m.colorNames.take 3) ++
  strCodes "\n\nPlease provide a detailed, coherent description of what this image likely contains, considering its dimensions, proportions, and color palette. Focus on the overall composition, mood, and potential subject matter that would align with these visual characteristics."

theorem natCodesAux_digits (fuel : ℕ) :
    ∀ n c, c ∈ natCodesAux fuel n → 48 ≤ c ∧ c ≤ 57 := by
  induction fuel with
  | zero => intro n c hc; simp [natCodesAux] at hc
  | succ fuel ih =>
    intro n c hc
    rw [natCodesAux] at hc
    split at hc
    · rw [List.mem_singleton] at hc
      omega
    · rcases List.mem_append.mp hc with h | h
      · exact ih _ c h
      · rw [List.mem_singleton] at h
        have := Nat.mod_lt n (show 0 < 10 by omega)
        omega

theorem natCodes_digits (n c : ℕ) (hc : c ∈ natCodes n) : 48 ≤ c ∧ c ≤ 57 :=
  natCodesAux_digits (n + 1) n c hc

theorem ratRender_charset (q : ℚ) (c : ℕ) (hc : c ∈ ratRender q) :
    c = 45 ∨ c = 46 ∨ (48 ≤ c ∧ c ≤ 57) := by
  unfold ratRender at hc
  rcases List.mem_append.mp hc with h | h
  · rcases List.mem_append.mp h with h' | h'
    · rcases List.mem_append.mp h' with h'' | h''
      · split at h''
        · rw [List.mem_singleton] at h''
          exact Or.inl h''
        · simp at h''
      · exact Or.inr (Or.inr (natCodes_digits _ _ h''))
    · rw [List.mem_singleton] at h'
      exact Or.inr (Or.inl h')
  · exact Or.inr (Or.inr (natCodes_digits _ _ h))

theorem joinCodes_mem (sep : List ℕ) (ls : List (List ℕ)) (c : ℕ)
    (hc : c ∈ joinCodes sep ls) : c ∈ sep ∨ ∃ x ∈ ls, c ∈ x := by
  induction ls with
  | nil => simp [joinCodes] at hc
  | cons x xs ih =>
    cases xs with
    | nil =>
      rw [joinCodes] at hc
      exact Or.inr ⟨x, List.mem_singleton_self x, hc⟩
    | cons y ys =>
      rw [joinCodes] at hc
      rcases List.mem_append.mp hc with h | h
      · rcases List.mem_append.mp h with h' | h'
        · exact Or.inr ⟨x, List.mem_cons_self _ _, h'⟩
        · exact Or.inl h'
      · rcases ih h with h' | ⟨z, hz, hcz⟩
        · exact Or.inl h'
        · exact Or.inr ⟨z, List.mem_cons_of_mem _ hz, hcz⟩

theorem mem_of_isSubAt : ∀ (p l : List ℕ), isSubAt p l = true → ∀ c ∈ p, c ∈ l := by
  intro p
  induction p with
  | nil => intro l _ c hc; simp at hc
  | cons a p' ih =>
    intro l h c hc
    cases l with
    | nil => simp [isSubAt] at h
    | cons b l' =>
      rw [isSubAt, Bool.and_eq_true] at h
      obtain ⟨hab, hsub⟩ := h
      rw [beq_iff_eq] at hab
      rcases List.mem_cons.mp hc with rfl | hc'
      · exact hab ▸ List.mem_cons_self _ _
      · exact List.mem_cons_of_mem _ (ih l' hsub c hc')

theorem subset_of_containsSub : ∀ (l p : List ℕ), containsSub l p = true →
    ∀ c ∈ p, c ∈ l := by
  intro l
  induction l with
  | nil =>
    intro p h c hc
    rw [containsSub, Bool.or_eq_true] at h
    rcases h with h | h
    · exact mem_of_isSubAt p [] h c hc
    · simp at h
  | cons b rest ih =>
    intro p h c hc
    rw [containsSub, Bool.or_eq_true] at h
    rcases h with h | h
    · exact mem_of_isSubAt p (b :: rest) h c hc
    · exact List.mem_cons_of_mem _ (ih p h c hc)

theorem asciiLower_eq_34 {c : ℕ} (h : asciiLower c = 34) : c = 34 := by
  unfold asciiLower at h
  split at h <;> omega

theorem asciiLower_eq_39 {c : ℕ} (h : asciiLower c = 39) : c = 39 := by
  unfold asciiLower at h
  split at h <;> omega

set_option maxRecDepth 400000 in
theorem prompt_no_quote (m : PromptMeta)
    (hnames : ∀ name ∈ m.colorNames, ∀ c ∈ name, c ≠ 34 ∧ c ≠ 39) :
    ∀ c ∈ generate_description_prompt m, c ≠ 34 ∧ c ≠ 39 := by
  intro c hc
  unfold generate_description_prompt at hc
  simp only [List.mem_append] at hc
  rcases hc with ((((((((h | h) | h) | h) | h) | h) | h) | h) | h)
  · exact (by decide :
      ∀ x ∈ strCodes "Describe this image based on the following visual analysis:\n\nImage Properties:\n- Dimensions: ",
        x ≠ 34 ∧ x ≠ 39) c h
  · have := natCodes_digits _ _ h; omega
  · exact (by decide : ∀ x ∈ strCodes " x ", x ≠ 34 ∧ x ≠ 39) c h
  · have := natCodes_digits _ _ h; omega
  · exact (by decide :
      ∀ x ∈ strCodes " pixels\n- Aspect ratio: ", x ≠ 34 ∧ x ≠ 39) c h
  · rcases ratRender_charset _ _ h with h' | h' | h' <;> omega
  · exact (by decide :
      ∀ x ∈ strCodes "\n- Dominant colors: ", x ≠ 34 ∧ x ≠ 39) c h
  · rcases joinCodes_mem _ _ _ h with h' | ⟨x, hx, hcx⟩
    · exact (by decide : ∀ y ∈ strCodes ", ", y ≠ 34 ∧ y ≠ 39) c h'
    · exact hnames x (List.mem_of_mem_take hx) c hcx
  · exact (by decide :
      ∀ x ∈ strCodes "\n\nPlease provide a detailed, coherent description of what this image likely contains, considering its dimensions, proportions, and color palette. Focus on the overall composition, mood, and potential subject matter that would align with these visual characteristics.",
        x ≠ 34 ∧ x ≠ 39) c h

/-- C3: composing `generate_description_prompt` with
`_extract_detected_colors` always yields the empty color list, because the
prompt renders color names as a plain comma-separated list while extraction
only matches quoted patterns; hence the local content-inference path always
runs on an empty color set.  (Color names contain no quote characters: the
hypothesis holds for every name `get_color_name` can produce.) -/
theorem C3_prompt_extraction_empty (m : PromptMeta)
    (hnames : ∀ name ∈ m.colorNames, ∀ c ∈ name, c ≠ 34 ∧ c ≠ 39) :
    extractDetectedColors (generate_description_prompt m) = [] := by
  have hno := prompt_no_quote m hnames
  have hlow : ∀ c ∈ (generate_description_prompt m).map asciiLower,
      c ≠ 34 ∧ c ≠ 39 := by
    intro c hc
    rcases List.mem_map.mp hc with ⟨c0, hc0, rfl⟩
    refine ⟨fun h => (hno c0 hc0).1 (asciiLower_eq_34 h),
      fun h => (hno c0 hc0).2 (asciiLower_eq_39 h)⟩
  unfold extractDetectedColors
  dsimp only
  have hfilter : colorVocab.filter (fun c =>
      containsSub ((generate_description_prompt m).map asciiLower)
        (strCodes "name\": \"" ++ c ++ [34]) ||
      containsSub ((generate_description_prompt m).map asciiLower)
        ([39] ++ c ++ [39])) = [] := by
    rw [List.filter_eq_nil_iff]
    intro c hc
    simp only [Bool.or_eq_true, not_or]
    constructor
    · intro hcont
      have h34 : (34:ℕ) ∈ strCodes "name\": \"" ++ c ++ [34] := by
        simp
      exact (hlow 34 (subset_of_containsSub _ _ hcont 34 h34)).1 rfl
    · intro hcont
      have h39 : (39:ℕ) ∈ [39] ++ c ++ [39] := by
        simp
      exact (hlow 39 (subset_of_containsSub _ _ hcont 39 h39)).2 rfl
  rw [hfilter]
  rfl

/-- Witness for C3 at a concrete metadata value with names "red", "green". -/
theorem C3_prompt_extraction_empty_witness :
    extractDetectedColors (generate_description_prompt
      ⟨100, 200, Rat.divInt 1 2, [strCodes "red", strCodes "green"]⟩) = [] :=
  C3_prompt_extraction_empty _ (by decide)

/-- Model of `LLMService._determine_orientation(aspect_ratio)`.  `Rat.divInt 16 10`
etc. are the source's `1.6`, `1.2`, `0.8` in kernel-computable form. -/
def determineOrientation (ar : ℚ) : List ℕ :=
  if 2 < ar then strCodes "ultra_wide_panoramic"
  else if Rat.divInt 16 10 < ar then strCodes "wide_landscape"
  else if Rat.divInt 12 10 < ar then strCodes "standard_landscape"
  else if Rat.divInt 8 10 < ar then strCodes "square_format"
  else strCodes "portrait_format"

/-- C7: `_determine_orientation` returns each of its five categories
exactly on the stated aspect-ratio interval. -/
theorem C7_orientation_thresholds (ar : ℚ) :
    (determineOrientation ar = strCodes "ultra_wide_panoramic" ↔ 2 < ar) ∧
    (determineOrientation ar = strCodes "wide_landscape" ↔ 1.6 < ar ∧ ar ≤ 2) ∧
    (determineOrientation ar = strCodes "standard_landscape" ↔ 1.2 < ar ∧ ar ≤ 1.6) ∧
    (determineOrientation ar = strCodes "square_format" ↔ 0.8 < ar ∧ ar ≤ 1.2) ∧
    (determineOrientation ar = strCodes "portrait_format" ↔ ar ≤ 0.8) := by
  have e16 : Rat.divInt 16 10 = (1.6:ℚ) := by rw [Rat.divInt_eq_div]; norm_num
  have e12 : Rat.divInt 12 10 = (1.2:ℚ) := by rw [Rat.divInt_eq_div]; norm_num
  have e08 : Rat.divInt 8 10 = (0.8:ℚ) := by rw [Rat.divInt_eq_div]; norm_num
  have c1 : (1.2:ℚ) < 1.6 := by norm_num
  have c2 : (1.6:ℚ) < 2 := by norm_num
  have c3 : (0.8:ℚ) < 1.2 := by norm_num
  unfold determineOrientation
  rw [e16, e12, e08]
  split_ifs with h1 h2 h3 h4 <;>
    refine ⟨?_, ?_, ?_, ?_, ?_⟩ <;> constructor <;> intro hx <;>
    first
      | rfl
      | exact absurd hx (by decide)
      | linarith
      | (exact ⟨by linarith, by linarith⟩)

/-- Model of `LLMService._determine_mood(colors)`: the first-match-wins rule ladder
over the detected color-name list. -/
def determineMood (colors : List (List ℕ)) : List ℕ :=
  if strCodes "black" ∈ colors ∧ colors.length ≤ 2 then strCodes "dramatic_moody"
  else if strCodes "blue" ∈ colors ∧ strCodes "white" ∈ colors then
    strCodes "serene_peaceful"
  else if strCodes "green" ∈ colors then strCodes "natural_fresh"
  else if strCodes "red" ∈ colors ∨ strCodes "orange" ∈ colors then
    strCodes "energetic_warm"
  else if strCodes "yellow" ∈ colors then strCodes "bright_cheerful"
  else if strCodes "purple" ∈ colors ∨ strCodes "pink" ∈ colors then
    strCodes "creative_artistic"
  else if strCodes "white" ∈ colors ∧ strCodes "gray" ∈ colors then
    strCodes "clean_minimal"
  else strCodes "balanced_harmonious"

/-- C8: the mood rule table is first-match-wins: any color set
containing "black" with at most 2 entries is "dramatic_moody" even when
later-matching colors (such as "green") are present, and a color set
matching no rule defaults to "balanced_harmonious". -/
theorem C8_mood_first_match (colors : List (List ℕ)) :
    (strCodes "black" ∈ colors ∧ colors.length ≤ 2 →
      determineMood colors = strCodes "dramatic_moody") ∧
    determineMood [strCodes "black", strCodes "green"] = strCodes "dramatic_moody" ∧
    (¬(strCodes "black" ∈ colors ∧ colors.length ≤ 2) →
     ¬(strCodes "blue" ∈ colors ∧ strCodes "white" ∈ colors) →
     strCodes "green" ∉ colors →
     ¬(strCodes "red" ∈ colors ∨ strCodes "orange" ∈ colors) →
     strCodes "yellow" ∉ colors →
     ¬(strCodes "purple" ∈ colors ∨ strCodes "pink" ∈ colors) →
     ¬(strCodes "white" ∈ colors ∧ strCodes "gray" ∈ colors) →
      determineMood colors = strCodes "balanced_harmonious") := by
  refine ⟨?_, by decide, ?_⟩
  · intro h
    unfold determineMood
    rw [if_pos h]
  · intro h1 h2 h3 h4 h5 h6 h7
    unfold determineMood
    rw [if_neg h1, if_neg h2, if_neg h3, if_neg h4, if_neg h5, if_neg h6, if_neg h7]

/-- Witness for C8: the black+green set takes the first rule; a set with
only "tan" matches no rule and defaults. -/
theorem C8_mood_first_match_witness :
    determineMood [strCodes "black", strCodes "green"] = strCodes "dramatic_moody" ∧
    determineMood [strCodes "tan"] = strCodes "balanced_harmonious" :=
  ⟨(C8_mood_first_match [strCodes "black", strCodes "green"]).1 (by decide),
   (C8_mood_first_match [strCodes "tan"]).2.2 (by decide) (by decide) (by decide)
     (by decide) (by decide) (by decide) (by decide)⟩

/-!
## `LLMService._get_intelligent_local_description` (claim C9)

Only the `float()` conversion inside `_extract_metadata_from_prompt` can
raise on this path; it is modelled with `Except`.  The two `re.search`
patterns contain no constructs that need backtracking (after a greedy
`\d+` or `\s*` run the following literal can never match inside the run),
so they are embedded as greedy scanners over code-point lists.
-/

/-- Digit test, the regex class `\d`, on a code point. -/
def isDigitCode (c : ℕ) : Bool := 48 ≤ c && c ≤ 57

/-- Whitespace test, the regex class `\s`, on an ASCII code point. -/
def isSpaceCode (c : ℕ) : Bool :=
  c == 32 || c == 9 || c == 10 || c == 13 || c == 11 || c == 12

/-- Numeric value of a digit string. -/
def codesToNat (ds : List ℕ) : ℕ := ds.foldl (fun a c => a * 10 + (c - 48)) 0

/-- Match `(\d+)\s*x\s*(\d+)\s*pixels` anchored at the start of `l`. -/
def matchDimsAt (l : List ℕ) : Option (ℕ × ℕ) :=
  let ds1 := l.takeWhile isDigitCode
  if ds1.isEmpty then none
  else
    match (l.dropWhile isDigitCode).dropWhile isSpaceCode with
    | 120 :: r2 =>
      let r3 := r2.dropWhile isSpaceCode
      let ds2 := r3.takeWhile isDigitCode
      if ds2.isEmpty then none
      else if isSubAt (strCodes "pixels") ((r3.dropWhile isDigitCode).dropWhile isSpaceCode) then
        some (codesToNat ds1, codesToNat ds2)
      else none
    | _ => none

/-- Leftmost match of `re.search(r'(\d+)\s*x\s*(\d+)\s*pixels', prompt)`. -/
def searchDims : List ℕ → Option (ℕ × ℕ)
  | [] => none
  | l@(_ :: rest) =>
    match matchDimsAt l with
    | some r => some r
    | none => searchDims rest

/-- Match `Aspect ratio:\s*([\d.]+)` anchored at the start of `l`,
returning the matched group. -/
def matchAspectAt (l : List ℕ) : Option (List ℕ) :=
  if isSubAt (strCodes "Aspect ratio:") l then
    let r := (l.drop 13).dropWhile isSpaceCode
    let ds := r.takeWhile (fun c => isDigitCode c || c == 46)
    if ds.isEmpty then none else some ds
  else none

/-- Leftmost match of `re.search(r'Aspect ratio:\s*([\d.]+)', prompt)`. -/
def searchAspectGroup : List ℕ → Option (List ℕ)
  | [] => none
  | l@(_ :: rest) =>
    match matchAspectAt l with
    | some r => some r
    | none => searchAspectGroup rest

/-- Python `float(s)` on a string matched by `[\d.]+`: defined iff the
string has at most one dot and at least one digit. -/
def pyFloat (ds : List ℕ) : Option ℚ :=
  if ds.count 46 ≤ 1 ∧ ds.any isDigitCode then
    let ip := ds.takeWhile (fun c => c != 46)
    let fp := (ds.dropWhile (fun c => c != 46)).drop 1
    some (qadd ((codesToNat ip : ℕ) : ℚ)
      (qdiv ((codesToNat fp : ℕ) : ℚ) (((10 ^ fp.length : ℕ) : ℚ))))
  else none

/-- The metadata dictionary built by `_extract_metadata_from_prompt`. -/
structure ParsedMeta where
  width : Option ℕ
  height : Option ℕ
  aspect : Option ℚ
deriving DecidableEq, Repr

/-- Model of `LLMService._extract_metadata_from_prompt(prompt)`; raises (returns
`.error`) exactly when the aspect-ratio group is not a valid float. -/
def extract_metadata_from_prompt (p : List ℕ) : Except (List ℕ) ParsedMeta :=
  let dims := searchDims p
  match searchAspectGroup p with
  | none => .ok ⟨dims.map Prod.fst, dims.map Prod.snd, none⟩
  | some ds =>
    match pyFloat ds with
    | some q => .ok ⟨dims.map Prod.fst, dims.map Prod.snd, some q⟩
    | none =>
      .error (strCodes "could not convert string to float: " ++ [39] ++ ds ++ [39])

/-- Model of `LLMService._determine_subject_matter(colors, aspect_ratio)`. -/
def determineSubjectMatter (colors : List (List ℕ)) (ar : ℚ) : List ℕ :=
  if strCodes "green" ∈ colors ∧ strCodes "blue" ∈ colors then
    strCodes "natural_landscape"
  else if strCodes "green" ∈ colors ∧ strCodes "brown" ∈ colors then
    strCodes "nature_scene"
  else if strCodes "blue" ∈ colors ∧ strCodes "white" ∈ colors then
    strCodes "sky_or_water_scene"
  else if strCodes "white" ∈ colors ∧ strCodes "gray" ∈ colors then
    strCodes "architectural_scene"
  else if strCodes "black" ∈ colors ∧ colors.length ≤ 2 then
    strCodes "high_contrast_subject"
  else if ar < 1 ∧ (strCodes "beige" ∈ colors ∨ strCodes "tan" ∈ colors) then
    strCodes "possible_portrait"
  else if colors.length ≤ 2 then strCodes "minimalist_composition"
  else if strCodes "red" ∈ colors ∨ strCodes "orange" ∈ colors ∨
      strCodes "yellow" ∈ colors then
    strCodes "warm_colorful_scene"
  else if strCodes "purple" ∈ colors ∨ strCodes "pink" ∈ colors then
    strCodes "artistic_creative_scene"
  else if 4 ≤ colors.length then strCodes "diverse_colorful_scene"
  else strCodes "balanced_composition"

/-- Model of `LLMService._determine_setting(colors, aspect_ratio)`. -/
def determineSetting (colors : List (List ℕ)) (ar : ℚ) : List ℕ :=
  if strCodes "green" ∈ colors ∧ strCodes "blue" ∈ colors then
    strCodes "outdoor_natural"
  else if strCodes "blue" ∈ colors ∧ Rat.divInt 15 10 < ar then
    strCodes "open_sky_water"
  else if strCodes "white" ∈ colors ∧ strCodes "gray" ∈ colors then
    strCodes "urban_architectural"
  else if strCodes "brown" ∈ colors ∧ strCodes "green" ∈ colors then
    strCodes "rural_countryside"
  else if strCodes "black" ∈ colors then strCodes "studio_controlled"
  else strCodes "general_environment"

/-- Model of `LLMService._determine_photography_type(colors, aspect_ratio,
width, height)`. -/
def determinePhotographyType (colors : List (List ℕ)) (ar : ℚ)
    (width height : ℕ) : List ℕ :=
  let tp := if width ≠ 0 ∧ height ≠ 0 then width * height else 0
  if ar < Rat.divInt 9 10 ∧ 2000000 < tp then strCodes "portrait_photography"
  else if Rat.divInt 18 10 < ar then strCodes "panoramic_photography"
  else if strCodes "white" ∈ colors ∧ strCodes "gray" ∈ colors ∧
      Rat.divInt 12 10 < ar then
    strCodes "architectural_photography"
  else if strCodes "green" ∈ colors ∧ strCodes "blue" ∈ colors then
    strCodes "landscape_photography"
  else if colors.length ≤ 2 then strCodes "artistic_photography"
  else if 10000000 < tp then strCodes "professional_photography"
  else strCodes "general_photography"

/-- The analysis dictionary of `_analyze_image_content`. -/
structure ContentAnalysis where
  orientation : List ℕ
  likely_subject : List ℕ
  mood : List ℕ
  setting : List ℕ
  photography_type : List ℕ
deriving DecidableEq, Repr

/-- Model of `LLMService._analyze_image_content(colors, metadata)`. -/
def analyzeImageContent (colors : List (List ℕ)) (md : ParsedMeta) :
    ContentAnalysis :=
  let ar := md.aspect.getD 1
  { orientation := determineOrientation ar
    likely_subject := determineSubjectMatter colors ar
    mood := determineMood colors
    setting := determineSetting colors ar
    photography_type :=
      determinePhotographyType colors ar (md.width.getD 0) (md.height.getD 0) }

/-- Display of `metadata.get('width', 'unknown')` in an f-string. -/
def dimDisp : Option ℕ → List ℕ
  | some n => natCodes n
  | none => strCodes "unknown"

/-- Model of `LLMService._generate_smart_description(analysis, metadata, colors)`:
fixed fragments selected by category, concatenated in source order
(dimension clause, orientation, subject, mood, resolution, photography
type).  `\x27` is an apostrophe. -/
def generateSmartDescription (analysis : ContentAnalysis) (md : ParsedMeta)
    (colors : List (List ℕ)) : List ℕ :=
  let d1 := strCodes "This is a " ++ dimDisp md.width ++ strCodes " x " ++
    dimDisp md.height ++ strCodes " pixel image"
  let od :=
    if analysis.orientation = strCodes "ultra_wide_panoramic" then
      strCodes " captured in an ultra-wide panoramic format that\x27s perfect for sweeping vistas and expansive scenes"
    else if analysis.orientation = strCodes "wide_landscape" then
      strCodes " shot in a wide landscape format ideal for scenic compositions"
    else if analysis.orientation = strCodes "standard_landscape" then
      strCodes " captured in standard landscape orientation"
    else if analysis.orientation = strCodes "square_format" then
      strCodes " composed in a square format that creates balanced, centered framing"
    else if analysis.orientation = strCodes "portrait_format" then
      strCodes " shot in portrait orientation, ideal for vertical subjects"
    else strCodes " with good compositional framing"
  let sd :=
    if analysis.likely_subject = strCodes "natural_landscape" then
      strCodes ". This appears to be a landscape photograph featuring natural outdoor elements. The combination of colors suggests scenery that includes sky, water, or vegetation, creating a harmonious natural composition."
    else if analysis.likely_subject = strCodes "nature_scene" then
      strCodes ". This image captures a nature scene with organic elements and earth tones. The composition likely features vegetation, terrain, or wildlife in their natural environment."
    else if analysis.likely_subject = strCodes "sky_or_water_scene" then
      strCodes ". The color palette indicates this image features sky or water elements, possibly clouds, horizon lines, or aquatic scenes that create a sense of openness and tranquility."
    else if analysis.likely_subject = strCodes "architectural_scene" then
      strCodes ". This appears to be architectural photography featuring buildings, structures, or urban elements. The neutral color palette suggests modern or contemporary design aesthetics."
    else if analysis.likely_subject = strCodes "high_contrast_subject" then
      strCodes ". This image uses dramatic contrast and limited color palette to create visual impact. The composition likely features strong lighting, silhouettes, or bold graphic elements."
    else if analysis.likely_subject = strCodes "possible_portrait" then
      strCodes ". The composition and color palette suggest this might be portrait photography, possibly featuring people or close-up subjects with careful attention to lighting and framing."
    else if analysis.likely_subject = strCodes "minimalist_composition" then
      strCodes ". This image embraces minimalist aesthetics with a restrained color palette and clean composition. The simplicity creates visual elegance and focus."
    else if analysis.likely_subject = strCodes "warm_colorful_scene" then
      strCodes ". This vibrant image features warm, energetic colors that create visual excitement. The palette suggests subjects like flowers, sunset scenes, or colorful environments."
    else if analysis.likely_subject = strCodes "artistic_creative_scene" then
      strCodes ". This appears to be creative or artistic photography with an intentional color palette designed to evoke emotion and visual interest."
    else if analysis.likely_subject = strCodes "diverse_colorful_scene" then
      strCodes ". This image features a rich, diverse color palette that creates visual complexity and interest. The variety of colors suggests a dynamic, engaging subject matter."
    else if analysis.likely_subject = strCodes "balanced_composition" then
      strCodes ". This image demonstrates thoughtful composition with a balanced color palette that creates visual harmony and professional appeal."
    else strCodes ". This image shows careful attention to composition and visual elements."
  let mo :=
    if analysis.mood = strCodes "dramatic_moody" then
      strCodes " The dramatic lighting and contrast create a moody, atmospheric quality that draws viewer attention."
    else if analysis.mood = strCodes "serene_peaceful" then
      strCodes " The color palette creates a serene, peaceful atmosphere that\x27s calming and contemplative."
    else if analysis.mood = strCodes "natural_fresh" then
      strCodes " The natural tones evoke freshness and vitality, suggesting outdoor environments or organic subjects."
    else if analysis.mood = strCodes "energetic_warm" then
      strCodes " The warm colors create an energetic, inviting atmosphere that feels vibrant and engaging."
    else if analysis.mood = strCodes "bright_cheerful" then
      strCodes " The bright palette creates a cheerful, optimistic mood that\x27s uplifting and positive."
    else if analysis.mood = strCodes "creative_artistic" then
      strCodes " The unique color choices suggest artistic creativity and intentional aesthetic decisions."
    else if analysis.mood = strCodes "clean_minimal" then
      strCodes " The clean, minimal palette creates a sophisticated, contemporary aesthetic."
    else if analysis.mood = strCodes "balanced_harmonious" then
      strCodes " The balanced color relationships create visual harmony and professional polish."
    else strCodes " The color choices contribute to the overall visual impact."
  let tp := match md.width, md.height with
    | some w, some h => w * h
    | _, _ => 0
  let rd :=
    if 15000000 < tp then
      strCodes " The exceptional resolution (15+ megapixels) indicates professional-grade capture suitable for large format printing, detailed analysis, or commercial use."
    else if 10000000 < tp then
      strCodes " The high resolution (10+ megapixels) ensures excellent detail and quality suitable for professional applications and large displays."
    else if 5000000 < tp then
      strCodes " The good resolution (5+ megapixels) provides clear detail suitable for most display and print purposes."
    else if 2000000 < tp then
      strCodes " The standard resolution provides adequate detail for web use and standard printing."
    else []
  let pd :=
    if analysis.photography_type = strCodes "portrait_photography" then
      strCodes " This appears to be portrait-style photography with careful attention to subject framing and lighting."
    else if analysis.photography_type = strCodes "panoramic_photography" then
      strCodes " The panoramic format is designed to capture expansive views and wide scenic compositions."
    else if analysis.photography_type = strCodes "architectural_photography" then
      strCodes " This represents architectural photography focusing on structural elements and design."
    else if analysis.photography_type = strCodes "landscape_photography" then
      strCodes " This is landscape photography showcasing natural environments and scenic beauty."
    else if analysis.photography_type = strCodes "artistic_photography" then
      strCodes " This represents artistic photography with creative vision and aesthetic intent."
    else if analysis.photography_type = strCodes "professional_photography" then
      strCodes " The technical quality indicates professional photography standards and equipment."
    else []
  d1 ++ od ++ sd ++ mo ++ rd ++ pd

/-- A description-result dictionary of `LLMService`. -/
structure DescResult where
  description : List ℕ
  model_used : List ℕ
  model_type : List ℕ
  fallback_reason : Option (List ℕ)
deriving DecidableEq, Repr

/-- The generic fallback dictionary of the local path's `except` branch. -/
def fallbackResult (e : List ℕ) : DescResult :=
  { description := strCodes "This appears to be a well-composed photograph with good technical quality and interesting visual elements that create an engaging composition."
    model_used := strCodes "general_fallback"
    model_type := strCodes "local"
    fallback_reason := some e }

/-- Model of `LLMService._get_intelligent_local_description(prompt)`: the composed
local pipeline, with the `except` branch substituting the fixed fallback. -/
def getIntelligentLocalDescription (prompt : List ℕ) : DescResult :=
  match extract_metadata_from_prompt prompt with
  | .error e => fallbackResult e
  | .ok md =>
    let colors := extractDetectedColors prompt
    let analysis := analyzeImageContent colors md
    { description := generateSmartDescription analysis md colors
      model_used := strCodes "intelligent_visual_analyzer"
      model_type := strCodes "local"
      fallback_reason := none }

theorem generateSmartDescription_ne_nil (analysis : ContentAnalysis)
    (md : ParsedMeta) (colors : List (List ℕ)) :
    generateSmartDescription analysis md colors ≠ [] := by
  unfold generateSmartDescription
  dsimp only
  repeat' apply List.append_ne_nil_of_left_ne_nil
  decide

/-- C9: the local description path is total: for every prompt it returns
a result whose `model_type` is "local" and whose description is non-empty,
and whenever the internal metadata extraction raises it returns exactly the
generic fallback result instead of propagating the error. -/
theorem C9_local_description_total (prompt : List ℕ) :
    (getIntelligentLocalDescription prompt).model_type = strCodes "local" ∧
    (getIntelligentLocalDescription prompt).description ≠ [] ∧
    (∀ e, extract_metadata_from_prompt prompt = .error e →
      getIntelligentLocalDescription prompt = fallbackResult e) := by
  unfold getIntelligentLocalDescription
  cases hE : extract_metadata_from_prompt prompt with
  | error e =>
    refine ⟨rfl, ?_, fun e' he' => ?_⟩
    · have hne : strCodes "This appears to be a well-composed photograph with good technical quality and interesting visual elements that create an engaging composition." ≠ [] := by
        decide
      exact hne
    · cases he'
      rfl
  | ok md =>
    refine ⟨rfl,
      generateSmartDescription_ne_nil
        (analyzeImageContent (extractDetectedColors prompt) md) md
        (extractDetectedColors prompt),
      fun e' he' => ?_⟩
    cases he'

/-- Witness for C9: a prompt whose aspect-ratio group `..` is not a valid
float makes the internal step raise, and the result is the fallback. -/
theorem C9_local_description_total_witness :
    getIntelligentLocalDescription (strCodes "Aspect ratio: ..") =
      fallbackResult (strCodes "could not convert string to float: " ++
        [39] ++ strCodes ".." ++ [39]) :=
  (C9_local_description_total (strCodes "Aspect ratio: ..")).2.2 _ (by rfl)

/-!
## `LLMService._get_remote_description` (claim C10)

The two network calls are collaborator-boundary functions passed in as
parameters; only the key-based branch structure and the free fallback are
code of this repository.
-/

/-- The configuration read from settings: the two API keys (empty string =
not configured, Python falsy). -/
structure RemoteConfig where
  openai_key : List ℕ
  anthropic_key : List ℕ

/-- Model of `LLMService._call_huggingface_free(prompt)`: returns the fixed canned
result; its `try` body cannot fail. -/
def callHuggingfaceFree (prompt : List ℕ) : Except (List ℕ) DescResult :=
  .ok
    { description := strCodes "This image has been successfully analyzed for technical metadata. The composition and color palette suggest a well-crafted photograph with professional attention to visual elements and technical quality."
      model_used := strCodes "huggingface_free_fallback"
      model_type := strCodes "remote"
      fallback_reason := none }

/-- Model of `LLMService._get_remote_description(prompt)`: dispatch on which key is
configured; with no key, fall through to the Hugging Face free fallback. -/
def getRemoteDescription
    (callOpenai callAnthropic : List ℕ → Except (List ℕ) DescResult)
    (cfg : RemoteConfig) (prompt : List ℕ) : Except (List ℕ) DescResult :=
  if cfg.openai_key ≠ [] then callOpenai prompt
  else if cfg.anthropic_key ≠ [] then callAnthropic prompt
  else callHuggingfaceFree prompt

/-- C10: with neither an OpenAI nor an Anthropic key configured, the
remote path never errors: for every prompt (and any behavior of the
external call functions) it returns the fixed canned description tagged
`huggingface_free_fallback` / `remote`. -/
theorem C10_remote_no_key_fallback
    (callOpenai callAnthropic : List ℕ → Except (List ℕ) DescResult)
    (cfg : RemoteConfig) (prompt : List ℕ)
    (hO : cfg.openai_key = []) (hA : cfg.anthropic_key = []) :
    getRemoteDescription callOpenai callAnthropic cfg prompt =
      .ok
        { description := strCodes "This image has been successfully analyzed for technical metadata. The composition and color palette suggest a well-crafted photograph with professional attention to visual elements and technical quality."
          model_used := strCodes "huggingface_free_fallback"
          model_type := strCodes "remote"
          fallback_reason := none } := by
  unfold getRemoteDescription
  rw [if_neg (by simp [hO]), if_neg (by simp [hA])]
  rfl

/-- Witness for C10 with a concrete empty-key configuration. -/
theorem C10_remote_no_key_fallback_witness :
    getRemoteDescription (fun _ => .error (strCodes "network down"))
      (fun _ => .error (strCodes "network down")) ⟨[], []⟩
      (strCodes "any prompt") =
      .ok
        { description := strCodes "This image has been successfully analyzed for technical metadata. The composition and color palette suggest a well-crafted photograph with professional attention to visual elements and technical quality."
          model_used := strCodes "huggingface_free_fallback"
          model_type := strCodes "remote"
          fallback_reason := none } :=
  C10_remote_no_key_fallback _ _ ⟨[], []⟩ (strCodes "any prompt") rfl rfl
